import Mathlib

/-!
Verification of the gamepad-test input-sampling and edge-detection core
(`src/App.tsx`, `src/types.ts`).

The per-frame pipeline of `scanGamepads` is embedded shallowly:

* platform `Gamepad` objects become `RawGamepad` values (floats are
  modelled as rationals; a slot of `navigator.getGamepads()` that is
  `null`/`undefined` is `none`);
* the React component state (`activeGamepadIndex`, `gamepadState`,
  `inputLog`) together with the mutable ref `prevButtonsRef` becomes the
  record `CoreState`, and the body of `scanGamepads` becomes the pure
  state transformer `scanGamepads`;
* `Date` and `Math.random()` are environment inputs: each frame receives
  the epoch milliseconds `nowMs`, the locale-formatted time string
  `timeStr`, and a stream `rands : Nat → String` giving the rendered
  value of each successive `Math.random()` call of that frame;
* the `useEffect` on `[activeGamepadIndex]` (App.tsx lines 44-47), which
  React runs after a commit that changed the active index and before the
  next animation-frame callback, is modelled by `afterActiveChange`,
  applied after each operation that may change the active slot.
-/

/-- One entry of `GamepadState.buttons` (src/types.ts): `pressed` flag and
analog `value` (a float in `[0,1]`, modelled as a rational). -/
structure GamepadButton where
  pressed : Bool
  value : ℚ
deriving DecidableEq, Repr

/-- The normalized snapshot `GamepadState` of src/types.ts. -/
structure GamepadState where
  id : String
  connected : Bool
  timestamp : ℚ
  buttons : List GamepadButton
  axes : List ℚ
deriving DecidableEq, Repr

/-- A raw platform `Gamepad` object as read from `navigator.getGamepads()`:
the same observable fields the code consumes. -/
structure RawGamepad where
  id : String
  connected : Bool
  timestamp : ℚ
  buttons : List GamepadButton
  axes : List ℚ
deriving DecidableEq, Repr

/-- `LogEntry` of App.tsx lines 28-32. -/
structure LogEntry where
  id : String
  button : String
  time : String
deriving DecidableEq, Repr

/-- `BUTTON_MAP` of App.tsx lines 7-26, as a partial map from button
index to display name. -/
def BUTTON_MAP : Nat → Option String
  | 0 => some "A"
  | 1 => some "B"
  | 2 => some "X"
  | 3 => some "Y"
  | 4 => some "LB"
  | 5 => some "RB"
  | 6 => some "LT"
  | 7 => some "RT"
  | 8 => some "View"
  | 9 => some "Menu"
  | 10 => some "LS (左摇杆)"
  | 11 => some "RS (右摇杆)"
  | 12 => some "↑ 上"
  | 13 => some "↓ 下"
  | 14 => some "← 左"
  | 15 => some "→ 右"
  | 16 => some "Xbox"
  | 17 => some "Share"
  | _ => none

/-- The log-entry object built at App.tsx lines 98-103: the id is the
template string `` `${now.getTime()}-${index}-${Math.random()}` `` (here
`rand` is the rendered random draw), the label is
`BUTTON_MAP[index] || `Button ${index}``, the time is the formatted
`timeString` of line 88 (locale formatting is an environment input). -/
def mkLogEntry (nowMs index : Nat) (rand timeStr : String) : LogEntry :=
  { id := s!"{nowMs}-{index}-{rand}"
    button := (BUTTON_MAP index).getD s!"Button {index}"
    time := timeStr }

/-- The `currentGp.buttons.forEach` loop of App.tsx lines 90-107.
`index` is the running button index, `rpos` the position in the frame's
`Math.random()` stream, `prev` the tracker array `prevButtonsRef.current`.
The line `if (prevButtonsRef.current.length <= index) prevButtonsRef.current[index] = false;`
pads the array up to `index` (a JS hole reads as a falsy `undefined`,
i.e. as `false`, so padding with `false` is observationally exact); the
rising-edge test reads the tracker before the unconditional write
`prevButtonsRef.current[index] = btn.pressed`. -/
def detectEdges (nowMs : Nat) (timeStr : String) (rands : Nat → String) :
    List GamepadButton → Nat → Nat → List Bool → List LogEntry × List Bool
  | [], _, _, prev => ([], prev)
  | btn :: rest, index, rpos, prev =>
    let prev1 := if prev.length ≤ index then
        prev ++ List.replicate (index + 1 - prev.length) false
      else prev
    let prev2 := prev1.set index btn.pressed
    if btn.pressed && !(prev1.getD index false) then
      let res := detectEdges nowMs timeStr rands rest (index + 1) (rpos + 1) prev2
      (mkLogEntry nowMs index (rands rpos) timeStr :: res.1, res.2)
    else
      detectEdges nowMs timeStr rands rest (index + 1) rpos prev2

/-- One frame of edge detection: the forEach loop started at index 0 with
the first random draw of the frame. Returns the batch `newLogs` (in loop
order) and the tracker left behind. -/
def runEdgeDetect (nowMs : Nat) (timeStr : String) (rands : Nat → String)
    (buttons : List GamepadButton) (prev : List Bool) : List LogEntry × List Bool :=
  detectEdges nowMs timeStr rands buttons 0 0 prev

/-- The log update of App.tsx lines 109-112: only when the frame produced
at least one entry is the log rebuilt as `[...newLogs, ...prev].slice(0, 50)`. -/
def updateLog (newLogs : List LogEntry) (log : List LogEntry) : List LogEntry :=
  if 0 < newLogs.length then (newLogs ++ log).take 50 else log

/-- `mapGamepadToState` of App.tsx lines 50-61. -/
def mapGamepadToState (gp : RawGamepad) : GamepadState :=
  { id := gp.id
    connected := gp.connected
    timestamp := gp.timestamp
    buttons := gp.buttons.map fun b => { pressed := b.pressed, value := b.value }
    axes := gp.axes }

/-- The React component state of App.tsx lines 35-41 that the claims are
about, plus the mutable ref `prevButtonsRef`. -/
structure CoreState where
  activeGamepadIndex : Option Nat
  gamepadState : Option GamepadState
  inputLog : List LogEntry
  prevButtons : List Bool
deriving DecidableEq, Repr

/-- Reading slot `i` of the `navigator.getGamepads()` array: an index out
of range or a `null` slot both read as `none`. -/
def slotAt (slots : List (Option RawGamepad)) (i : Nat) : Option RawGamepad :=
  slots.getD i none

/-- The auto-detect loop of App.tsx lines 73-78: scan slots in ascending
index order and return the first connected one with its index. -/
def findFirstConnected : List (Option RawGamepad) → Nat → Option (Nat × RawGamepad)
  | [], _ => none
  | some gp :: rest, i => if gp.connected then some (i, gp) else findFirstConnected rest (i + 1)
  | none :: rest, i => findFirstConnected rest (i + 1)

/-- The fallback branch of the selection (App.tsx lines 71-79): auto-detect,
leaving the active index unchanged when nothing is connected (the caller's
else-branch then clears it). -/
def autoDetect (slots : List (Option RawGamepad)) (active : Option Nat) :
    Option Nat × Option RawGamepad :=
  match findFirstConnected slots 0 with
  | some (j, gp) => (some j, some gp)
  | none => (active, none)

/-- The focus selection of App.tsx lines 69-80: keep the previous active
index when `gamepads[activeGamepadIndex] && gamepads[activeGamepadIndex]?.connected`,
otherwise auto-detect. Returns the (tentative) active index and `currentGp`. -/
def selectCurrent (slots : List (Option RawGamepad)) (active : Option Nat) :
    Option Nat × Option RawGamepad :=
  match active with
  | some i =>
    match slotAt slots i with
    | some gp => if gp.connected then (some i, some gp) else autoDetect slots (some i)
    | none => autoDetect slots (some i)
  | none => autoDetect slots none

/-- The body of `scanGamepads` (App.tsx lines 64-120) as a pure state
transformer over one frame's environment inputs: slot selection, snapshot
normalization, edge detection with tracker mutation, conditional log
update; or, with no current gamepad, the else-branch of lines 114-117. -/
def scanGamepads (slots : List (Option RawGamepad)) (nowMs : Nat) (timeStr : String)
    (rands : Nat → String) (s : CoreState) : CoreState :=
  match selectCurrent slots s.activeGamepadIndex with
  | (act1, some gp) =>
    let r := runEdgeDetect nowMs timeStr rands gp.buttons s.prevButtons
    { activeGamepadIndex := act1
      gamepadState := some (mapGamepadToState gp)
      inputLog := updateLog r.1 s.inputLog
      prevButtons := r.2 }
  | (_, none) =>
    { s with gamepadState := none, activeGamepadIndex := none }

/-- The reset effect of App.tsx lines 44-47 (`useEffect` on
`[activeGamepadIndex]`): after an operation left the active index
different from its previous value, the tracker is reset to
`new Array(20).fill(false)` and the log is cleared, before the next
frame's callback runs. -/
def afterActiveChange (old : Option Nat) (s : CoreState) : CoreState :=
  if s.activeGamepadIndex = old then s
  else { s with prevButtons := List.replicate 20 false, inputLog := [] }

/-- One full frame step: the `scanGamepads` body followed by the reset
effect when the active index changed. -/
def scanStep (slots : List (Option RawGamepad)) (nowMs : Nat) (timeStr : String)
    (rands : Nat → String) (s : CoreState) : CoreState :=
  afterActiveChange s.activeGamepadIndex (scanGamepads slots nowMs timeStr rands s)

/-- The `gamepadconnected` listener of App.tsx lines 123-128 (adopt the
slot only when none is active), followed by the reset effect. -/
def onConnect (slotIndex : Nat) (s : CoreState) : CoreState :=
  afterActiveChange s.activeGamepadIndex
    (if s.activeGamepadIndex = none then { s with activeGamepadIndex := some slotIndex } else s)

/-- The `gamepaddisconnected` listener of App.tsx lines 130-136 (clear the
active slot only when it is the one disconnecting), followed by the reset
effect. -/
def onDisconnect (slotIndex : Nat) (s : CoreState) : CoreState :=
  afterActiveChange s.activeGamepadIndex
    (if s.activeGamepadIndex = some slotIndex then
      { s with activeGamepadIndex := none, gamepadState := none }
    else s)

/-- `clearLog` of App.tsx line 163. -/
def clearLog (s : CoreState) : CoreState :=
  { s with inputLog := [] }

-- Standard axis indices of src/types.ts (`AxisIndex`).
namespace AxisIndex

def LX : Nat := 0

def LY : Nat := 1

def RX : Nat := 2

def RY : Nat := 3

end AxisIndex

-- Standard button indices of src/types.ts (`ButtonIndex`).
namespace ButtonIndex

def LT : Nat := 6

def RT : Nat := 7

end ButtonIndex

/-- The axis read of App.tsx lines 282-291: `gamepadState.axes[k] || 0`.
JS `||` yields the right operand on a falsy left operand, so a missing
entry (`undefined`) and a zero both read as `0`. -/
def axisDisplayValue (s : GamepadState) (k : Nat) : ℚ :=
  match s.axes.get? k with
  | some v => if v = 0 then 0 else v
  | none => 0

/-- The trigger read of App.tsx lines 298/303/310/315:
`gamepadState.buttons[k].value`, with no guard. A missing entry makes
`buttons[k]` `undefined` and the `.value` access throw a `TypeError`;
the thrown read is modelled as `none`. -/
def triggerDisplayValue (s : GamepadState) (k : Nat) : Option ℚ :=
  match s.buttons.get? k with
  | some b => some b.value
  | none => none

/-! ## Specification-side characterizations -/

/-- The list of rising-edge button indices of one frame, consuming the
tracker positionally: at each index the prior value is the tracker's
head (`false` when the tracker has no entry there). -/
def risingGo : List GamepadButton → Nat → List Bool → List Nat
  | [], _, _ => []
  | btn :: rest, index, prev =>
    if btn.pressed && !(prev.headD false) then
      index :: risingGo rest (index + 1) prev.tail
    else
      risingGo rest (index + 1) prev.tail

/-- Rising-edge indices of a frame, from index 0. -/
def risingIndices (buttons : List GamepadButton) (prev : List Bool) : List Nat :=
  risingGo buttons 0 prev

/-- One log entry per listed index, in list order, consuming one random
draw per entry starting at stream position `rpos`. -/
def entriesOf (nowMs : Nat) (timeStr : String) (rands : Nat → String) :
    Nat → List Nat → List LogEntry
  | _, [] => []
  | rpos, i :: is => mkLogEntry nowMs i (rands rpos) timeStr :: entriesOf nowMs timeStr rands (rpos + 1) is

/-- The tracker left behind by a frame: each processed button overwrites
its position with its pressed flag; unprocessed tail positions survive. -/
def newTracker : List GamepadButton → List Bool → List Bool
  | [], prev => prev
  | btn :: rest, prev => btn.pressed :: newTracker rest prev.tail

/-- One frame's environment inputs for a single-device session:
epoch milliseconds, formatted time string, the frame's stream of rendered
`Math.random()` draws, and the device's button array. -/
structure FrameData where
  nowMs : Nat
  timeStr : String
  rands : Nat → String
  buttons : List GamepadButton

/-- One session frame at the edge-detector level: run edge detection on
the tracker, then the conditional log update. -/
def stepSession (st : List Bool × List LogEntry) (f : FrameData) : List Bool × List LogEntry :=
  let r := runEdgeDetect f.nowMs f.timeStr f.rands f.buttons st.1
  (r.2, updateLog r.1 st.2)

/-- A whole single-device session: frames processed in order. -/
def runSession (frames : List FrameData) (st : List Bool × List LogEntry) :
    List Bool × List LogEntry :=
  frames.foldl stepSession st

/-- The per-frame batches of a session, in chronological order, threading
the tracker exactly as `runSession` does. -/
def sessionBatches : List FrameData → List Bool → List (List LogEntry)
  | [], _ => []
  | f :: fs, prev =>
    let r := runEdgeDetect f.nowMs f.timeStr f.rands f.buttons prev
    r.1 :: sessionBatches fs r.2

/-- All entries a session produced, newest first (last frame's batch
first; within a batch, loop order). -/
def newestFirstEntries (frames : List FrameData) (prev : List Bool) : List LogEntry :=
  (sessionBatches frames prev).reverse.flatten

/-- Whether slot `i` of the current `getGamepads()` array holds a
connected device. -/
def slotConnected (slots : List (Option RawGamepad)) (i : Nat) : Bool :=
  match slotAt slots i with
  | some gp => gp.connected
  | none => false

/-- Whether the (optional) active index refers to a connected slot. -/
def activeConnected (slots : List (Option RawGamepad)) : Option Nat → Bool
  | some i => slotConnected slots i
  | none => false

/-! ## Helper lemmas -/

lemma getD_eq_get? {α : Type} (l : List α) (n : Nat) (d : α) :
    l.getD n d = (l.get? n).getD d := by
  induction l generalizing n with
  | nil => cases n <;> rfl
  | cons a t ih => cases n with
    | zero => rfl
    | succ m => simp [ih m]

lemma getD_tail {α : Type} (l : List α) (k : Nat) (d : α) :
    l.tail.getD k d = l.getD (k + 1) d := by
  cases l <;> rfl

lemma set_append_len {α : Type} (l1 l2 : List α) (v : α) :
    (l1 ++ l2).set l1.length v = l1 ++ l2.set 0 v := by
  induction l1 with
  | nil => rfl
  | cons a t ih => simp [List.set, ih]

lemma take_append_take {α : Type} (x y : List α) (m n : Nat) (h : m ≤ n) :
    (x ++ y.take n).take m = (x ++ y).take m := by
  induction x generalizing m with
  | nil => simp [List.take_take, Nat.min_eq_left h]
  | cons a t ih =>
    cases m with
    | zero => rfl
    | succ m' =>
      simp only [List.cons_append, List.take_succ_cons]
      rw [ih m' (by omega)]

lemma detectEdges_eq (nowMs : Nat) (timeStr : String) (rands : Nat → String)
    (rest : List GamepadButton) :
    ∀ (front back : List Bool) (rpos : Nat),
    detectEdges nowMs timeStr rands rest front.length rpos (front ++ back)
      = (entriesOf nowMs timeStr rands rpos (risingGo rest front.length back),
         front ++ newTracker rest back) := by
  induction rest with
  | nil =>
    intro front back rpos
    simp [detectEdges, risingGo, entriesOf, newTracker]
  | cons btn rest ih =>
    intro front back rpos
    have ih' : ∀ (back2 : List Bool) (rpos2 : Nat),
        detectEdges nowMs timeStr rands rest (front.length + 1) rpos2
            ((front ++ [btn.pressed]) ++ back2)
          = (entriesOf nowMs timeStr rands rpos2 (risingGo rest (front.length + 1) back2),
             (front ++ [btn.pressed]) ++ newTracker rest back2) := by
      intro back2 rpos2
      have h := ih (front ++ [btn.pressed]) back2 rpos2
      simpa using h
    cases back with
    | nil =>
      have hif : (if (front ++ ([] : List Bool)).length ≤ front.length then
            (front ++ ([] : List Bool)) ++
              List.replicate (front.length + 1 - (front ++ ([] : List Bool)).length) false
          else front ++ ([] : List Bool)) = front ++ [false] := by
        rw [if_pos (by simp)]
        simp
      have hgetD : (front ++ [false]).getD front.length false = false := by
        rw [List.getD_append_right _ _ _ _ (le_refl _)]
        simp
      have hset : (front ++ [false]).set front.length btn.pressed
          = (front ++ [btn.pressed]) ++ ([] : List Bool) := by
        rw [set_append_len]
        simp
      simp only [detectEdges, hif, hgetD, hset, ih']
      cases hp : btn.pressed with
      | true => simp [risingGo, newTracker, entriesOf, hp]
      | false => simp [risingGo, newTracker, entriesOf, hp]
    | cons w back' =>
      have hif : (if (front ++ w :: back').length ≤ front.length then
            (front ++ w :: back') ++
              List.replicate (front.length + 1 - (front ++ w :: back').length) false
          else front ++ w :: back') = front ++ w :: back' := by
        rw [if_neg]
        simp only [List.length_append, List.length_cons]
        omega
      have hgetD : (front ++ w :: back').getD front.length false = w := by
        rw [List.getD_append_right _ _ _ _ (le_refl _)]
        simp
      have hset : (front ++ w :: back').set front.length btn.pressed
          = (front ++ [btn.pressed]) ++ back' := by
        rw [set_append_len]
        simp
      simp only [detectEdges, hif, hgetD, hset, ih']
      cases hc : btn.pressed && !w with
      | true => simp [risingGo, newTracker, entriesOf, hc]
      | false => simp [risingGo, newTracker, entriesOf, hc]

lemma runEdgeDetect_eq (nowMs : Nat) (timeStr : String) (rands : Nat → String)
    (buttons : List GamepadButton) (prev : List Bool) :
    runEdgeDetect nowMs timeStr rands buttons prev
      = (entriesOf nowMs timeStr rands 0 (risingIndices buttons prev),
         newTracker buttons prev) := by
  have h := detectEdges_eq nowMs timeStr rands buttons [] prev 0
  simpa [runEdgeDetect, risingIndices] using h

lemma mem_risingGo (rest : List GamepadButton) :
    ∀ (index : Nat) (prev : List Bool) (i : Nat),
    i ∈ risingGo rest index prev ↔
      ∃ k b, rest.get? k = some b ∧ i = index + k ∧ b.pressed = true ∧
        prev.getD k false = false := by
  induction rest with
  | nil =>
    intro index prev i
    simp [risingGo]
  | cons btn rest ih =>
    intro index prev i
    have hhead : prev.getD 0 false = prev.headD false := by
      cases prev <;> rfl
    constructor
    · intro hmem
      by_cases hc : (btn.pressed && !(prev.headD false)) = true
      · have hc2 := hc
        simp only [Bool.and_eq_true, Bool.not_eq_true'] at hc2
        rw [risingGo, if_pos hc] at hmem
        rcases List.mem_cons.mp hmem with h0 | h1
        · refine ⟨0, btn, rfl, by omega, hc2.1, ?_⟩
          rw [hhead]
          exact hc2.2
        · rcases (ih (index + 1) prev.tail i).mp h1 with ⟨k, b, hk, hik, hp, hprev⟩
          exact ⟨k + 1, b, by simpa using hk, by omega, hp,
            by rw [← getD_tail]; exact hprev⟩
      · rw [risingGo, if_neg hc] at hmem
        rcases (ih (index + 1) prev.tail i).mp hmem with ⟨k, b, hk, hik, hp, hprev⟩
        exact ⟨k + 1, b, by simpa using hk, by omega, hp,
          by rw [← getD_tail]; exact hprev⟩
    · rintro ⟨k, b, hk, hik, hp, hprev⟩
      cases k with
      | zero =>
        obtain rfl : btn = b := by simpa using hk
        have hc : (btn.pressed && !(prev.headD false)) = true := by
          rw [← hhead]
          simp only [hp, Bool.true_and, Bool.not_eq_true']
          exact hprev
        rw [risingGo, if_pos hc]
        simp [hik]
      | succ k' =>
        have hk' : rest.get? k' = some b := by simpa using hk
        have hprev' : prev.tail.getD k' false = false := by
          rw [getD_tail]; exact hprev
        have hmem' : i ∈ risingGo rest (index + 1) prev.tail :=
          (ih (index + 1) prev.tail i).mpr ⟨k', b, hk', by omega, hp, hprev'⟩
        rw [risingGo]
        split
        · exact List.mem_cons_of_mem _ hmem'
        · exact hmem'

lemma mem_risingIndices (buttons : List GamepadButton) (prev : List Bool) (i : Nat) :
    i ∈ risingIndices buttons prev ↔
      ∃ b, buttons.get? i = some b ∧ b.pressed = true ∧ prev.getD i false = false := by
  rw [risingIndices, mem_risingGo]
  constructor
  · rintro ⟨k, b, hk, hik, hp, hprev⟩
    have hki : k = i := by omega
    subst hki
    exact ⟨b, hk, hp, hprev⟩
  · rintro ⟨b, hk, hp, hprev⟩
    exact ⟨i, b, hk, by omega, hp, hprev⟩

lemma risingGo_lower (rest : List GamepadButton) (index : Nat) (prev : List Bool)
    (i : Nat) (h : i ∈ risingGo rest index prev) : index ≤ i := by
  rcases (mem_risingGo rest index prev i).mp h with ⟨k, b, _, hik, _, _⟩
  omega

lemma risingGo_sorted (rest : List GamepadButton) :
    ∀ (index : Nat) (prev : List Bool),
    List.Sorted (· < ·) (risingGo rest index prev) := by
  induction rest with
  | nil => intro index prev; simp [risingGo]
  | cons btn rest ih =>
    intro index prev
    rw [risingGo]
    split
    · refine List.sorted_cons.mpr ⟨?_, ih (index + 1) prev.tail⟩
      intro j hj
      have := risingGo_lower rest (index + 1) prev.tail j hj
      omega
    · exact ih (index + 1) prev.tail

lemma newTracker_eq (rest : List GamepadButton) :
    ∀ prev : List Bool,
    newTracker rest prev = rest.map (fun b => b.pressed) ++ prev.drop rest.length := by
  induction rest with
  | nil => intro prev; simp [newTracker]
  | cons btn rest ih =>
    intro prev
    have htd : prev.tail.drop rest.length = prev.drop (rest.length + 1) := by
      cases prev <;> simp
    rw [newTracker, ih prev.tail, htd]
    simp

lemma newTracker_getD (buttons : List GamepadButton) (prev : List Bool)
    (i : Nat) (b : GamepadButton) (hb : buttons.get? i = some b) :
    (newTracker buttons prev).getD i false = b.pressed := by
  have hi : i < buttons.length := List.get?_eq_some.mp hb |>.fst
  rw [newTracker_eq]
  rw [List.getD_append _ _ _ _ (by simpa using hi)]
  rw [getD_eq_get?, List.get?_map, hb]
  rfl

lemma newTracker_length (buttons : List GamepadButton) (prev : List Bool) :
    (newTracker buttons prev).length = buttons.length + (prev.length - buttons.length) := by
  rw [newTracker_eq]
  simp

lemma entriesOf_length (nowMs : Nat) (timeStr : String) (rands : Nat → String) :
    ∀ (rpos : Nat) (is : List Nat),
    (entriesOf nowMs timeStr rands rpos is).length = is.length := by
  intro rpos is
  induction is generalizing rpos with
  | nil => rfl
  | cons i is ih => simp [entriesOf, ih]

lemma mem_entriesOf (nowMs : Nat) (timeStr : String) (rands : Nat → String) :
    ∀ (rpos : Nat) (is : List Nat) (e : LogEntry),
    e ∈ entriesOf nowMs timeStr rands rpos is →
      ∃ k i, is.get? k = some i ∧ e = mkLogEntry nowMs i (rands (rpos + k)) timeStr := by
  intro rpos is
  induction is generalizing rpos with
  | nil => intro e he; simp [entriesOf] at he
  | cons i is ih =>
    intro e he
    rcases List.mem_cons.mp he with h0 | h1
    · exact ⟨0, i, rfl, by simpa using h0⟩
    · rcases ih (rpos + 1) e h1 with ⟨k, j, hk, hej⟩
      have harith : rpos + 1 + k = rpos + (k + 1) := by omega
      exact ⟨k + 1, j, by simpa using hk, by rw [hej, harith]⟩

lemma updateLog_length (newLogs log : List LogEntry) (h : log.length ≤ 50) :
    (updateLog newLogs log).length ≤ 50 := by
  rw [updateLog]
  split
  · simp
  · exact h

lemma runSession_log (frames : List FrameData) :
    ∀ (prev : List Bool) (log : List LogEntry), log.length ≤ 50 →
    (runSession frames (prev, log)).2
      = (newestFirstEntries frames prev ++ log).take 50 := by
  induction frames with
  | nil =>
    intro prev log h
    simp [runSession, newestFirstEntries, sessionBatches, List.take_of_length_le h]
  | cons f fs ih =>
    intro prev log h
    have hstep : runSession (f :: fs) (prev, log)
        = runSession fs ((runEdgeDetect f.nowMs f.timeStr f.rands f.buttons prev).2,
            updateLog (runEdgeDetect f.nowMs f.timeStr f.rands f.buttons prev).1 log) := by
      rfl
    rw [hstep, ih _ _ (updateLog_length _ _ h)]
    have hnf : newestFirstEntries (f :: fs) prev
        = newestFirstEntries fs (runEdgeDetect f.nowMs f.timeStr f.rands f.buttons prev).2
            ++ (runEdgeDetect f.nowMs f.timeStr f.rands f.buttons prev).1 := by
      rw [newestFirstEntries, newestFirstEntries, sessionBatches]
      simp
    rw [hnf]
    set nl := (runEdgeDetect f.nowMs f.timeStr f.rands f.buttons prev).1 with hnl
    set nf := newestFirstEntries fs (runEdgeDetect f.nowMs f.timeStr f.rands f.buttons prev).2
    rw [updateLog]
    split
    · rw [take_append_take _ _ 50 50 (le_refl 50)]
      simp [List.append_assoc]
    · next hne =>
      have : nl = [] := by
        cases hn : nl
        · rfl
        · rw [hn] at hne; simp at hne
      rw [this]
      simp

lemma findFirstConnected_spec (slots : List (Option RawGamepad)) :
    ∀ (i0 : Nat),
    (∀ j gp, findFirstConnected slots i0 = some (j, gp) →
      i0 ≤ j ∧ slots.getD (j - i0) none = some gp ∧ gp.connected = true ∧
        ∀ k, k < j - i0 → slotConnected slots k = false)
    ∧ (findFirstConnected slots i0 = none → ∀ k, slotConnected slots k = false) := by
  induction slots with
  | nil =>
    intro i0
    constructor
    · intro j gp h
      simp [findFirstConnected] at h
    · intro _ k
      simp [slotConnected, slotAt]
  | cons o rest ih =>
    intro i0
    cases o with
    | some gp0 =>
      by_cases hconn : gp0.connected = true
      · constructor
        · intro j gp h
          rw [findFirstConnected, if_pos hconn] at h
          obtain ⟨rfl, rfl⟩ : i0 = j ∧ gp0 = gp := by
            constructor <;> [skip; skip] <;> cases h <;> rfl
          refine ⟨le_refl _, ?_, hconn, ?_⟩
          · simp [Nat.sub_self, List.getD]
          · intro k hk
            omega
        · intro h
          rw [findFirstConnected, if_pos hconn] at h
          cases h
      · have hconn' : gp0.connected = false := by
          cases hcg : gp0.connected
          · rfl
          · exact absurd hcg hconn
        constructor
        · intro j gp h
          rw [findFirstConnected, if_neg hconn] at h
          rcases (ih (i0 + 1)).1 j gp h with ⟨hle, hget, hc, hmin⟩
          refine ⟨by omega, ?_, hc, ?_⟩
          · have : j - i0 = (j - (i0 + 1)) + 1 := by omega
            rw [this]
            simpa using hget
          · intro k hk
            cases k with
            | zero => simp [slotConnected, slotAt, hconn']
            | succ k' =>
              have : k' < j - (i0 + 1) := by omega
              have hr := hmin k' this
              simpa [slotConnected, slotAt] using hr
        · intro h
          rw [findFirstConnected, if_neg hconn] at h
          intro k
          cases k with
          | zero => simp [slotConnected, slotAt, hconn']
          | succ k' =>
            have hr := (ih (i0 + 1)).2 h k'
            simpa [slotConnected, slotAt] using hr
    | none =>
      constructor
      · intro j gp h
        rw [findFirstConnected] at h
        rcases (ih (i0 + 1)).1 j gp h with ⟨hle, hget, hc, hmin⟩
        refine ⟨by omega, ?_, hc, ?_⟩
        · have : j - i0 = (j - (i0 + 1)) + 1 := by omega
          rw [this]
          simpa using hget
        · intro k hk
          cases k with
          | zero => simp [slotConnected, slotAt]
          | succ k' =>
            have : k' < j - (i0 + 1) := by omega
            have hr := hmin k' this
            simpa [slotConnected, slotAt] using hr
      · intro h
        rw [findFirstConnected] at h
        intro k
        cases k with
        | zero => simp [slotConnected, slotAt]
        | succ k' =>
          have hr := (ih (i0 + 1)).2 h k'
          simpa [slotConnected, slotAt] using hr

lemma selectCurrent_keep (slots : List (Option RawGamepad)) (active : Option Nat)
    (h : activeConnected slots active = true) :
    (selectCurrent slots active).1 = active := by
  cases active with
  | none => simp [activeConnected] at h
  | some i =>
    rw [activeConnected, slotConnected] at h
    rw [selectCurrent]
    cases hs : slotAt slots i with
    | none => rw [hs] at h; cases h
    | some gp =>
      rw [hs] at h
      simp only at h
      simp [h]

lemma selectCurrent_auto (slots : List (Option RawGamepad)) (active : Option Nat)
    (h : activeConnected slots active = false) :
    selectCurrent slots active = autoDetect slots active := by
  cases active with
  | none => rfl
  | some i =>
    rw [activeConnected, slotConnected] at h
    rw [selectCurrent]
    cases hs : slotAt slots i with
    | none => rfl
    | some gp =>
      rw [hs] at h
      simp only at h
      simp [h]

lemma autoDetect_some (slots : List (Option RawGamepad)) (active : Option Nat)
    (j : Nat) (gp : RawGamepad) (h : autoDetect slots active = (some j, some gp)) :
    slotConnected slots j = true ∧ ∀ k, k < j → slotConnected slots k = false := by
  rw [autoDetect] at h
  cases hf : findFirstConnected slots 0 with
  | none =>
    rw [hf] at h
    cases active <;> simp at h
  | some p =>
    rw [hf] at h
    obtain ⟨h1, h2⟩ : some p.1 = some j ∧ some p.2 = some gp := by
      cases hp : p
      rw [hp] at h
      constructor
      · exact congrArg Prod.fst h
      · exact congrArg Prod.snd h
    have hj : p.1 = j := by injection h1
    rcases (findFirstConnected_spec slots 0).1 p.1 p.2 (by rw [hf]) with ⟨_, hget, hc, hmin⟩
    subst hj
    rw [Nat.sub_zero] at hget
    constructor
    · rw [slotConnected, slotAt, hget]
      exact hc
    · intro k hk
      exact hmin k (by omega)

lemma autoDetect_none (slots : List (Option RawGamepad)) (active : Option Nat)
    (h : ∀ k, slotConnected slots k = false) :
    autoDetect slots active = (active, none) := by
  rw [autoDetect]
  cases hf : findFirstConnected slots 0 with
  | none => rfl
  | some p =>
    exfalso
    rcases (findFirstConnected_spec slots 0).1 p.1 p.2 (by rw [hf]) with ⟨_, hget, hc, _⟩
    have hk := h (p.1 - 0)
    rw [slotConnected, slotAt, hget] at hk
    simp only at hk
    rw [hk] at hc
    cases hc

lemma autoDetect_finds (slots : List (Option RawGamepad)) (active : Option Nat)
    (j : Nat) (hj : slotConnected slots j = true) :
    ∃ m gp, autoDetect slots active = (some m, some gp) ∧ slotConnected slots m = true ∧
      ∀ k, k < m → slotConnected slots k = false := by
  rw [autoDetect]
  cases hf : findFirstConnected slots 0 with
  | none =>
    exfalso
    have := (findFirstConnected_spec slots 0).2 hf j
    rw [this] at hj
    cases hj
  | some p =>
    rcases (findFirstConnected_spec slots 0).1 p.1 p.2 (by rw [hf]) with ⟨_, hget, hc, hmin⟩
    rw [Nat.sub_zero] at hget
    refine ⟨p.1, p.2, by simp, ?_, ?_⟩
    · rw [slotConnected, slotAt, hget]
      exact hc
    · intro k hk
      exact hmin k (by omega)

lemma selectCurrent_connected (slots : List (Option RawGamepad)) (active : Option Nat)
    (j : Nat) (gp : RawGamepad) (h : selectCurrent slots active = (some j, some gp)) :
    slotConnected slots j = true := by
  cases active with
  | none => exact (autoDetect_some slots none j gp h).1
  | some i =>
    rw [selectCurrent] at h
    cases hs : slotAt slots i with
    | none =>
      rw [hs] at h
      exact (autoDetect_some slots (some i) j gp h).1
    | some gp0 =>
      rw [hs] at h
      simp only at h
      by_cases hcg : gp0.connected = true
      · rw [if_pos hcg] at h
        have hji : i = j := by
          have := congrArg Prod.fst h
          simpa using this
        subst hji
        rw [slotConnected, slotAt]  
        rw [slotAt] at hs
        rw [hs]
        exact hcg
      · rw [if_neg hcg] at h
        exact (autoDetect_some slots (some i) j gp h).1

lemma selectCurrent_keep_full (slots : List (Option RawGamepad)) (active : Option Nat)
    (h : activeConnected slots active = true) :
    ∃ gp, selectCurrent slots active = (active, some gp) := by
  cases active with
  | none => simp [activeConnected] at h
  | some i =>
    rw [activeConnected, slotConnected] at h
    rw [selectCurrent]
    cases hs : slotAt slots i with
    | none => rw [hs] at h; cases h
    | some gp =>
      rw [hs] at h
      simp only at h
      exact ⟨gp, by simp [h]⟩

lemma scanGamepads_sel_some (slots : List (Option RawGamepad)) (nowMs : Nat)
    (timeStr : String) (rands : Nat → String) (s : CoreState) (act1 : Option Nat)
    (gp : RawGamepad) (hsel : selectCurrent slots s.activeGamepadIndex = (act1, some gp)) :
    scanGamepads slots nowMs timeStr rands s =
      { activeGamepadIndex := act1
        gamepadState := some (mapGamepadToState gp)
        inputLog := updateLog (runEdgeDetect nowMs timeStr rands gp.buttons s.prevButtons).1
          s.inputLog
        prevButtons := (runEdgeDetect nowMs timeStr rands gp.buttons s.prevButtons).2 } := by
  rw [scanGamepads, hsel]

lemma scanGamepads_sel_none (slots : List (Option RawGamepad)) (nowMs : Nat)
    (timeStr : String) (rands : Nat → String) (s : CoreState) (act1 : Option Nat)
    (hsel : selectCurrent slots s.activeGamepadIndex = (act1, none)) :
    scanGamepads slots nowMs timeStr rands s =
      { s with gamepadState := none, activeGamepadIndex := none } := by
  rw [scanGamepads, hsel]

lemma afterActiveChange_reset (old : Option Nat) (s1 : CoreState)
    (h : (afterActiveChange old s1).activeGamepadIndex ≠ old) :
    (afterActiveChange old s1).prevButtons = List.replicate 20 false
    ∧ (afterActiveChange old s1).inputLog = [] := by
  by_cases heq : s1.activeGamepadIndex = old
  · exfalso
    apply h
    rw [afterActiveChange, if_pos heq]
    exact heq
  · rw [afterActiveChange, if_neg heq]
    exact ⟨rfl, rfl⟩

/-! ## Claims -/

/-- Claim C1: for every per-frame button sequence processed by the edge
detector, a log entry is emitted for button index `i` in a given frame if
and only if the current snapshot's `buttons[i].pressed` is true and the
tracker's prior value for `i` is false: the batch is exactly one entry
per rising index (in order, `entriesOf`), and an index is rising iff
`pressed` now and previously `false` (with a missing tracker entry read
as false) — so exactly once per false-to-true transition and never on
true-to-true, true-to-false, or false-to-false transitions. -/
theorem risingEdgeLoggingComplete (nowMs : Nat) (timeStr : String) (rands : Nat → String)
    (buttons : List GamepadButton) (prev : List Bool) :
    (runEdgeDetect nowMs timeStr rands buttons prev).1
      = entriesOf nowMs timeStr rands 0 (risingIndices buttons prev)
    ∧ ∀ i, (i ∈ risingIndices buttons prev ↔
        ∃ b, buttons.get? i = some b ∧ b.pressed = true ∧ prev.getD i false = false) :=
  ⟨by rw [runEdgeDetect_eq], fun i => mem_risingIndices buttons prev i⟩

/-- Witness for C1: on buttons `[pressed, pressed, released]` against
tracker `[false, true]`, only index 0 is a rising edge. -/
theorem risingEdgeLoggingComplete_witness :
    (runEdgeDetect 7 "t" (fun _ => "0.25") [⟨true, 1⟩, ⟨true, 0⟩, ⟨false, 0⟩] [false, true]).1
      = entriesOf 7 "t" (fun _ => "0.25") 0
          (risingIndices [⟨true, 1⟩, ⟨true, 0⟩, ⟨false, 0⟩] [false, true])
    ∧ risingIndices [⟨true, 1⟩, ⟨true, 0⟩, ⟨false, 0⟩] [false, true] = [0] :=
  ⟨(risingEdgeLoggingComplete 7 "t" (fun _ => "0.25")
      [⟨true, 1⟩, ⟨true, 0⟩, ⟨false, 0⟩] [false, true]).1, by decide⟩

/-- Claim C2: the input log always holds at most 50 entries; over any
session, the log equals the newest-first concatenation of all emitted
batches (then the initial log) truncated to 50, and once more than 50
entries have been produced the log is exactly the 50 most recent ones in
newest-first order. -/
theorem inputLogBounded (frames : List FrameData) (prev : List Bool) (log : List LogEntry) :
    (log.length ≤ 50 →
      (runSession frames (prev, log)).2 = (newestFirstEntries frames prev ++ log).take 50
      ∧ (runSession frames (prev, log)).2.length ≤ 50)
    ∧ (50 < (newestFirstEntries frames prev).length →
        (runSession frames (prev, [])).2 = (newestFirstEntries frames prev).take 50
        ∧ (runSession frames (prev, [])).2.length = 50) := by
  constructor
  · intro h
    have h1 := runSession_log frames prev log h
    refine ⟨h1, ?_⟩
    rw [h1, List.length_take]
    omega
  · intro h
    have h1 := runSession_log frames prev [] (by simp)
    rw [List.append_nil] at h1
    refine ⟨h1, ?_⟩
    rw [h1, List.length_take]
    omega

/-- Witness for C2: a single frame with 51 buttons all pressed produces
51 rising edges; the log is truncated to exactly 50 entries. -/
theorem inputLogBounded_witness :
    (runSession [⟨0, "", fun _ => "", List.replicate 51 (⟨true, 0⟩ : GamepadButton)⟩]
        ([], [])).2
      = (newestFirstEntries
          [⟨0, "", fun _ => "", List.replicate 51 (⟨true, 0⟩ : GamepadButton)⟩] []).take 50
    ∧ (runSession [⟨0, "", fun _ => "", List.replicate 51 (⟨true, 0⟩ : GamepadButton)⟩]
        ([], [])).2.length = 50 :=
  (inputLogBounded [⟨0, "", fun _ => "", List.replicate 51 (⟨true, 0⟩ : GamepadButton)⟩]
      [] []).2 (by decide)

/-- Claim C3: every change of the active device slot (none-to-slot,
slot-to-none, or slot-to-different-slot), whether produced by a frame
step or by the connect/disconnect listeners, resets the Previous-Press
Tracker to all-false (`new Array(20).fill(false)`) and empties the log
before the next frame's sample runs. -/
theorem activeChangeResetsState (slots : List (Option RawGamepad)) (nowMs : Nat)
    (timeStr : String) (rands : Nat → String) (slotIndex : Nat) (s : CoreState) :
    ((scanStep slots nowMs timeStr rands s).activeGamepadIndex ≠ s.activeGamepadIndex →
      (scanStep slots nowMs timeStr rands s).prevButtons = List.replicate 20 false
      ∧ (scanStep slots nowMs timeStr rands s).inputLog = [])
    ∧ ((onConnect slotIndex s).activeGamepadIndex ≠ s.activeGamepadIndex →
      (onConnect slotIndex s).prevButtons = List.replicate 20 false
      ∧ (onConnect slotIndex s).inputLog = [])
    ∧ ((onDisconnect slotIndex s).activeGamepadIndex ≠ s.activeGamepadIndex →
      (onDisconnect slotIndex s).prevButtons = List.replicate 20 false
      ∧ (onDisconnect slotIndex s).inputLog = []) :=
  ⟨fun h => afterActiveChange_reset _ _ h,
   fun h => afterActiveChange_reset _ _ h,
   fun h => afterActiveChange_reset _ _ h⟩

/-- Witness for C3: a frame that auto-selects slot 0 from the none state
leaves a reset tracker and an empty log, discarding the stale entry. -/
theorem activeChangeResetsState_witness :
    (scanStep [some ⟨"padA", true, 0, [⟨true, 1⟩], [0, 0, 0, 0]⟩] 3 "t" (fun _ => "0.1")
        ⟨none, none, [⟨"old", "A", "t0"⟩], [true, true]⟩).prevButtons
      = List.replicate 20 false
    ∧ (scanStep [some ⟨"padA", true, 0, [⟨true, 1⟩], [0, 0, 0, 0]⟩] 3 "t" (fun _ => "0.1")
        ⟨none, none, [⟨"old", "A", "t0"⟩], [true, true]⟩).inputLog = [] :=
  (activeChangeResetsState [some ⟨"padA", true, 0, [⟨true, 1⟩], [0, 0, 0, 0]⟩] 3 "t"
      (fun _ => "0.1") 0 ⟨none, none, [⟨"old", "A", "t0"⟩], [true, true]⟩).1 (by decide)

/-- Claim C4: the frame's active-slot selection keeps the previous index
when that slot still holds a connected device; otherwise it selects the
lowest index holding a connected device; otherwise the active slot
becomes none — and whenever the resulting active slot is some index,
that slot is connected in the frame's snapshot of the slot list. -/
theorem activeSlotSelection (slots : List (Option RawGamepad)) (nowMs : Nat)
    (timeStr : String) (rands : Nat → String) (s : CoreState) :
    (activeConnected slots s.activeGamepadIndex = true →
      (scanGamepads slots nowMs timeStr rands s).activeGamepadIndex = s.activeGamepadIndex)
    ∧ (activeConnected slots s.activeGamepadIndex = false →
        ((∀ k, slotConnected slots k = false) →
          (scanGamepads slots nowMs timeStr rands s).activeGamepadIndex = none)
        ∧ (∀ j, slotConnected slots j = true →
            ∃ m, (scanGamepads slots nowMs timeStr rands s).activeGamepadIndex = some m
              ∧ slotConnected slots m = true
              ∧ ∀ k, k < m → slotConnected slots k = false))
    ∧ (∀ j, (scanGamepads slots nowMs timeStr rands s).activeGamepadIndex = some j →
        slotConnected slots j = true) := by
  refine ⟨?_, ?_, ?_⟩
  · intro h
    rcases selectCurrent_keep_full slots s.activeGamepadIndex h with ⟨gp, hsel⟩
    rw [scanGamepads_sel_some slots nowMs timeStr rands s _ gp hsel]
  · intro h
    have hauto := selectCurrent_auto slots s.activeGamepadIndex h
    constructor
    · intro hnone
      have hsel : selectCurrent slots s.activeGamepadIndex = (s.activeGamepadIndex, none) := by
        rw [hauto]
        exact autoDetect_none slots s.activeGamepadIndex hnone
      rw [scanGamepads_sel_none slots nowMs timeStr rands s _ hsel]
    · intro j hj
      rcases autoDetect_finds slots s.activeGamepadIndex j hj with ⟨m, gp, had, hmc, hmin⟩
      have hsel : selectCurrent slots s.activeGamepadIndex = (some m, some gp) := by
        rw [hauto, had]
      refine ⟨m, ?_, hmc, hmin⟩
      rw [scanGamepads_sel_some slots nowMs timeStr rands s _ gp hsel]
  · intro j hj
    cases hsel : selectCurrent slots s.activeGamepadIndex with
    | mk act1 cur =>
      cases cur with
      | none =>
        rw [scanGamepads_sel_none slots nowMs timeStr rands s _ hsel] at hj
        cases hj
      | some gp =>
        rw [scanGamepads_sel_some slots nowMs timeStr rands s _ gp hsel] at hj
        simp only at hj
        rw [hj] at hsel
        exact selectCurrent_connected slots s.activeGamepadIndex j gp hsel

/-- Witness for C4: with slot 0 connected and already active, the frame
keeps the active index. -/
theorem activeSlotSelection_witness :
    (scanGamepads [some ⟨"padA", true, 0, [], []⟩] 0 "t" (fun _ => "0.9")
        ⟨some 0, none, [], []⟩).activeGamepadIndex = some 0 :=
  (activeSlotSelection [some ⟨"padA", true, 0, [], []⟩] 0 "t" (fun _ => "0.9")
      ⟨some 0, none, [], []⟩).1 (by decide)

/-- Claim C5 (code bug): the spec requires out-of-range snapshot reads to
yield a neutral value (0 / not-pressed) without failing, and the axis
reads indeed default missing entries to 0 (`axes[k] || 0`); but the LT/RT
trigger displays read `buttons[ButtonIndex.LT].value` unguarded, so on a
connected device reporting fewer than 7 buttons the read faults (modelled
as `none`, the thrown TypeError) instead of yielding the neutral 0. -/
theorem outOfRangeTriggerReadFaults :
    triggerDisplayValue (mapGamepadToState ⟨"short-pad", true, 0, [], []⟩) ButtonIndex.LT
      = none
    ∧ triggerDisplayValue (mapGamepadToState ⟨"short-pad", true, 0, [], []⟩) ButtonIndex.RT
      = none
    ∧ axisDisplayValue (mapGamepadToState ⟨"short-pad", true, 0, [], []⟩) AxisIndex.LX = 0
    ∧ axisDisplayValue (mapGamepadToState ⟨"short-pad", true, 0, [], []⟩) AxisIndex.LY = 0
    ∧ axisDisplayValue (mapGamepadToState ⟨"short-pad", true, 0, [], []⟩) AxisIndex.RX = 0
    ∧ axisDisplayValue (mapGamepadToState ⟨"short-pad", true, 0, [], []⟩) AxisIndex.RY = 0 := by
  refine ⟨rfl, rfl, rfl, rfl, rfl, rfl⟩

/-- Claim C6: after a frame, for every index below the snapshot's button
count the tracker holds that button's pressed flag (falling edges update
the tracker but emit nothing); the tracker grows lazily to cover every
reported index (its length covers both the button count and the old
tracker), and an index with no recorded tracker entry is treated as
previously-false. -/
theorem trackerFollowsSnapshot (nowMs : Nat) (timeStr : String) (rands : Nat → String)
    (buttons : List GamepadButton) (prev : List Bool) :
    (runEdgeDetect nowMs timeStr rands buttons prev).2
        = buttons.map (fun b => b.pressed) ++ prev.drop buttons.length
    ∧ (∀ i b, buttons.get? i = some b →
        (runEdgeDetect nowMs timeStr rands buttons prev).2.getD i false = b.pressed)
    ∧ buttons.length ≤ (runEdgeDetect nowMs timeStr rands buttons prev).2.length
    ∧ prev.length ≤ (runEdgeDetect nowMs timeStr rands buttons prev).2.length
    ∧ (∀ i b, buttons.get? i = some b → prev.length ≤ i →
        (i ∈ risingIndices buttons prev ↔ b.pressed = true)) := by
  refine ⟨?_, ?_, ?_, ?_, ?_⟩
  · rw [runEdgeDetect_eq]
    exact newTracker_eq buttons prev
  · intro i b hb
    rw [runEdgeDetect_eq]
    exact newTracker_getD buttons prev i b hb
  · rw [runEdgeDetect_eq]
    rw [newTracker_length]
    omega
  · rw [runEdgeDetect_eq]
    rw [newTracker_length]
    omega
  · intro i b hb hlen
    rw [mem_risingIndices]
    constructor
    · rintro ⟨b2, hb2, hp, _⟩
      rw [hb] at hb2
      cases hb2
      exact hp
    · intro hp
      exact ⟨b, hb, hp, List.getD_eq_default prev false hlen⟩

/-- Witness for C6: a press and a release against a one-entry tracker
leave the tracker equal to the snapshot's pressed flags. -/
theorem trackerFollowsSnapshot_witness :
    (runEdgeDetect 2 "t" (fun _ => "0.3") [⟨true, 1⟩, ⟨false, 0⟩] [false]).2.getD 0 false
      = true
    ∧ (runEdgeDetect 2 "t" (fun _ => "0.3") [⟨true, 1⟩, ⟨false, 0⟩] [false]).2
      = [true, false] :=
  ⟨(trackerFollowsSnapshot 2 "t" (fun _ => "0.3") [⟨true, 1⟩, ⟨false, 0⟩] [false]).2.1 0
      ⟨true, 1⟩ (by decide),
   by decide⟩

/-- Claim C7: the rising indices of one frame are strictly ascending, the
batch lists exactly one entry per rising index in that order, and a
nonempty batch is prepended in front of the previous log before
truncation to 50 — so every entry of the batch sits before every entry
from prior frames. -/
theorem batchSortedAndPrepended (nowMs : Nat) (timeStr : String) (rands : Nat → String)
    (buttons : List GamepadButton) (prev : List Bool) (log : List LogEntry) :
    List.Sorted (· < ·) (risingIndices buttons prev)
    ∧ (runEdgeDetect nowMs timeStr rands buttons prev).1
        = entriesOf nowMs timeStr rands 0 (risingIndices buttons prev)
    ∧ ((runEdgeDetect nowMs timeStr rands buttons prev).1 ≠ [] →
        updateLog (runEdgeDetect nowMs timeStr rands buttons prev).1 log
          = ((runEdgeDetect nowMs timeStr rands buttons prev).1 ++ log).take 50) := by
  refine ⟨risingGo_sorted buttons 0 prev, by rw [runEdgeDetect_eq], ?_⟩
  intro hne
  rw [updateLog, if_pos (List.length_pos.mpr hne)]

/-- Witness for C7: a one-entry batch is prepended in front of an older
log entry before truncation. -/
theorem batchSortedAndPrepended_witness :
    updateLog (runEdgeDetect 3 "t" (fun _ => "0.2") [⟨true, 1⟩] []).1
        ([⟨"old", "B", "t0"⟩] : List LogEntry)
      = ((runEdgeDetect 3 "t" (fun _ => "0.2") [⟨true, 1⟩] []).1
          ++ ([⟨"old", "B", "t0"⟩] : List LogEntry)).take 50 :=
  (batchSortedAndPrepended 3 "t" (fun _ => "0.2") [⟨true, 1⟩] []
      ([⟨"old", "B", "t0"⟩] : List LogEntry)).2.2 (by decide)

/-- Counterexample for C8: log-entry identifiers are not unique across
all entries. The same button rises in two frames carrying the same epoch
millisecond (`getTime() = 0`) while `Math.random()` renders as "0.5" both
times — a possible (if improbable) draw — and the two surviving log
entries carry the identical id "0-0-0.5". -/
theorem logEntryIdsCollide :
    ¬ ((runSession
          [⟨0, "12:00:00.000", fun _ => "0.5", [⟨true, 1⟩]⟩,
           ⟨0, "12:00:00.000", fun _ => "0.5", [⟨false, 0⟩]⟩,
           ⟨0, "12:00:00.000", fun _ => "0.5", [⟨true, 1⟩]⟩]
          (List.replicate 20 false, [])).2.map (fun e => e.id)).Nodup := by
  decide

/-- Claim C8 (amended): every rising-edge entry carries the label from
the fixed index-to-name table (fallback `"Button {i}"`) and the id
`"{ms}-{i}-{rand}"` built from the frame's epoch milliseconds, the
button index, and one `Math.random()` draw; within one frame the batch's
index components are strictly ascending, hence pairwise distinct, so
several buttons firing in the same millisecond get distinct ids — but
ids are not guaranteed unique across frames: the same button rising
twice in the same millisecond collides when the random draw repeats. -/
theorem logEntryIdStructure (nowMs : Nat) (timeStr : String) (rands : Nat → String)
    (buttons : List GamepadButton) (prev : List Bool) :
    (runEdgeDetect nowMs timeStr rands buttons prev).1
      = entriesOf nowMs timeStr rands 0 (risingIndices buttons prev)
    ∧ List.Sorted (· < ·) (risingIndices buttons prev)
    ∧ ∀ e, e ∈ (runEdgeDetect nowMs timeStr rands buttons prev).1 →
        ∃ k i, (risingIndices buttons prev).get? k = some i
          ∧ e.id = s!"{nowMs}-{i}-{rands k}"
          ∧ e.button = (BUTTON_MAP i).getD s!"Button {i}"
          ∧ e.time = timeStr := by
  refine ⟨by rw [runEdgeDetect_eq], risingGo_sorted buttons 0 prev, ?_⟩
  intro e he
  rw [runEdgeDetect_eq] at he
  rcases mem_entriesOf nowMs timeStr rands 0 (risingIndices buttons prev) e he
    with ⟨k, i, hk, he2⟩
  rw [Nat.zero_add] at he2
  exact ⟨k, i, hk, by rw [he2]; rfl, by rw [he2]; rfl, by rw [he2]; rfl⟩

/-- Witness for C8 (amended): the single entry emitted for a press of
button 0 carries the table label for some listed rising index. -/
theorem logEntryIdStructure_witness :
    ∃ k i, (risingIndices [(⟨true, 1⟩ : GamepadButton)] []).get? k = some i
      ∧ (mkLogEntry 4 0 "0.5" "t").button = (BUTTON_MAP i).getD s!"Button {i}" := by
  have h := (logEntryIdStructure 4 "t" (fun _ => "0.5") [⟨true, 1⟩] []).2.2
    (mkLogEntry 4 0 "0.5" "t") (by decide)
  rcases h with ⟨k, i, h1, _, h3, _⟩
  exact ⟨k, i, h1, h3⟩

/-- Claim C9: `clearLog` empties the log immediately, is idempotent, and
leaves the Previous-Press Tracker (and the rest of the state) untouched,
so it cannot cause a held button to re-trigger a phantom entry. -/
theorem clearLogIdempotent (s : CoreState) :
    (clearLog s).inputLog = []
    ∧ clearLog (clearLog s) = clearLog s
    ∧ (clearLog s).prevButtons = s.prevButtons
    ∧ (clearLog s).activeGamepadIndex = s.activeGamepadIndex
    ∧ (clearLog s).gamepadState = s.gamepadState :=
  ⟨rfl, rfl, rfl, rfl, rfl⟩

/-- Witness for C9: clearing twice from a concrete nonempty log equals
clearing once, and the tracker survives. -/
theorem clearLogIdempotent_witness :
    clearLog (clearLog ⟨some 0, none, [⟨"a", "A", "t"⟩], [true]⟩)
      = clearLog ⟨some 0, none, [⟨"a", "A", "t"⟩], [true]⟩
    ∧ (clearLog ⟨some 0, none, [⟨"a", "A", "t"⟩], [true]⟩).prevButtons = [true] :=
  ⟨(clearLogIdempotent ⟨some 0, none, [⟨"a", "A", "t"⟩], [true]⟩).2.1,
   (clearLogIdempotent ⟨some 0, none, [⟨"a", "A", "t"⟩], [true]⟩).2.2.1⟩

/-- Claim C10: a frame whose selected snapshot produces no rising edge
leaves the log unchanged: the guard `if (newLogs.length > 0)` skips the
log update entirely, so the state keeps the very same log (and a frame
with no current device also leaves it untouched). -/
theorem noRisingEdgeNoLogUpdate (slots : List (Option RawGamepad)) (nowMs : Nat)
    (timeStr : String) (rands : Nat → String) (s : CoreState)
    (h : ∀ gp, (selectCurrent slots s.activeGamepadIndex).2 = some gp →
      risingIndices gp.buttons s.prevButtons = []) :
    (scanGamepads slots nowMs timeStr rands s).inputLog = s.inputLog := by
  cases hsel : selectCurrent slots s.activeGamepadIndex with
  | mk act1 cur =>
    cases cur with
    | none => rw [scanGamepads_sel_none slots nowMs timeStr rands s _ hsel]
    | some gp =>
      rw [scanGamepads_sel_some slots nowMs timeStr rands s _ gp hsel]
      have hr : (runEdgeDetect nowMs timeStr rands gp.buttons s.prevButtons).1 = [] := by
        rw [runEdgeDetect_eq, h gp (by rw [hsel])]
        rfl
      simp only
      rw [hr, updateLog]
      simp

/-- Witness for C10: a held-down button (tracker already true) produces
no rising edge and the nonempty log is returned unchanged. -/
theorem noRisingEdgeNoLogUpdate_witness :
    (scanGamepads [some ⟨"padA", true, 0, [⟨true, 1⟩], []⟩] 0 "t" (fun _ => "0.7")
        ⟨some 0, none, ([⟨"e1", "A", "t0"⟩] : List LogEntry), [true]⟩).inputLog
      = ([⟨"e1", "A", "t0"⟩] : List LogEntry) := by
  have h := noRisingEdgeNoLogUpdate [some ⟨"padA", true, 0, [⟨true, 1⟩], []⟩] 0 "t"
    (fun _ => "0.7") ⟨some 0, none, ([⟨"e1", "A", "t0"⟩] : List LogEntry), [true]⟩ ?_
  · exact h
  · intro gp hgp
    have h2 : some (⟨"padA", true, 0, [⟨true, 1⟩], []⟩ : RawGamepad) = some gp := hgp
    injection h2 with h3
    rw [← h3]
    decide
